import Mathlib

/-!
Verification of the huaweicloudai bootstrap (monolith unpacker) and process
supervisor (launcher).  The definitions below are a shallow embedding of the
C++ sources:

  * `src/monolith/src/main.cpp` — footer-addressed payload format,
    FNV-1a based authentication tag, splitmix64 keystream cipher,
    environment key resolution, and the verify-then-decrypt pipeline;
  * `src/launcher/src/main.cpp`  — the two-child process supervisor.

Machine integers (`uint64_t`) are modelled as `Nat` reduced modulo `2 ^ 64`
exactly where the C++ arithmetic wraps; bytes are `Nat` values below 256;
byte buffers are `List Nat`.
-/

/-! ### Constants of `src/monolith/src/main.cpp` -/

/-- `MAGIC` (line 15): the fixed 8-byte footer magic constant. -/
def MAGIC : List Nat := [0x6a, 0xc1, 0x53, 0x8f, 0x2d, 0xb7, 0x44, 0xe9]

/-- `DEFAULT_KEY` (lines 16-19): the built-in 16-byte default key. -/
def DEFAULT_KEY : List Nat :=
  [0x91, 0x2f, 0xd7, 0x4a, 0x83, 0xbc, 0x55, 0x19,
   0xe0, 0x6d, 0x33, 0xfa, 0x08, 0xc4, 0x72, 0xae]

/-- `FOOTER_SIZE` (line 20). -/
def FOOTER_SIZE : Nat := 48

/-- `FNV1A_OFFSET` (line 21). -/
def FNV1A_OFFSET : Nat := 0xcbf29ce484222325

/-- `FNV1A_PRIME` (line 22). -/
def FNV1A_PRIME : Nat := 0x100000001b3

/-- `AUTH_SEED_A` (line 23). -/
def AUTH_SEED_A : Nat := 0x9f8b7c6d5e4f3021

/-- `AUTH_SEED_B` (line 24). -/
def AUTH_SEED_B : Nat := 0x1023456789abcdef

/-- The bytes of the domain string `AUTH_V1 = "auth-v1"` (line 26). -/
def AUTH_V1 : List Nat := [0x61, 0x75, 0x74, 0x68, 0x2d, 0x76, 0x31]

/-- The bytes of the domain string `AUTH_V2 = "auth-v2"` (line 27). -/
def AUTH_V2 : List Nat := [0x61, 0x75, 0x74, 0x68, 0x2d, 0x76, 0x32]

/-- The bytes of the stream domain string `STREAM_V1 = "v1"` (line 28). -/
def STREAM_V1 : List Nat := [0x76, 0x31]

/-! ### Hashing (`fnv1a64Update`, `fnv1a64`, `splitmix64`) -/

/-- One iteration of the loop body of `fnv1a64Update` (lines 54-57):
`hash ^= data[i]; hash *= FNV1A_PRIME;` on a wrapping `uint64_t`. -/
def fnvStep (hash d : Nat) : Nat := ((hash ^^^ d) * FNV1A_PRIME) % 2 ^ 64

/-- `fnv1a64Update` (lines 53-59): fold `fnvStep` over a byte buffer. -/
def fnv1a64Update (hash : Nat) (data : List Nat) : Nat := data.foldl fnvStep hash

/-- `fnv1a64` (lines 61-67): hash a sequence of chunks starting from `seed`. -/
def fnv1a64 (chunks : List (List Nat)) (seed : Nat) : Nat :=
  chunks.foldl fnv1a64Update seed

/-- `splitmix64` (lines 69-75).  The C++ routine advances `state` by reference
and returns the mixed value; here it returns `(new state, mixed value)`. -/
def splitmix64 (state : Nat) : Nat × Nat :=
  let s := (state + 0x9e3779b97f4a7c15) % 2 ^ 64
  let z1 := ((s ^^^ (s >>> 30)) * 0xbf58476d1ce4e5b9) % 2 ^ 64
  let z2 := ((z1 ^^^ (z1 >>> 27)) * 0x94d049bb133111eb) % 2 ^ 64
  (s, z2 ^^^ (z2 >>> 31))

/-! ### Cipher engine (`decryptPayload`, lines 124-145) -/

/-- The byte loop of `decryptPayload` (lines 134-144): carries the generator
`state`, the current 8-byte `keystream` block and the intra-block index
`streamIndex`; on index 8 a fresh block is drawn from `splitmix64`. -/
def decryptGo (state keystream streamIndex : Nat) : List Nat → List Nat
  | [] => []
  | b :: rest =>
    if streamIndex = 8 then
      let p := splitmix64 state
      let mask := p.2 &&& 0xff
      (b ^^^ mask) :: decryptGo p.1 p.2 1 rest
    else
      let mask := (keystream >>> (streamIndex * 8)) &&& 0xff
      (b ^^^ mask) :: decryptGo state keystream (streamIndex + 1) rest

/-- `decryptPayload` (lines 124-145): seed the generator with the FNV-1a hash
of `key ‖ nonce ‖ "v1"` and XOR the payload with the keystream, 8 bytes per
generator call.  `keystream = 0, streamIndex = 8` mirror lines 134-135. -/
def decryptPayload (key nonce payload : List Nat) : List Nat :=
  let state := fnv1a64 [key, nonce, STREAM_V1] FNV1A_OFFSET
  decryptGo state 0 8 payload

lemma decryptGo_length (l : List Nat) :
    ∀ state keystream streamIndex,
      (decryptGo state keystream streamIndex l).length = l.length := by
  induction l with
  | nil => intro s ks i; simp [decryptGo]
  | cons b rest ih =>
    intro s ks i
    by_cases h : i = 8 <;> simp [decryptGo, h, ih]

lemma decryptGo_involutive (l : List Nat) :
    ∀ state keystream streamIndex,
      decryptGo state keystream streamIndex
        (decryptGo state keystream streamIndex l) = l := by
  induction l with
  | nil => intro s ks i; simp [decryptGo]
  | cons b rest ih =>
    intro s ks i
    by_cases h : i = 8 <;>
      simp [decryptGo, h, ih, Nat.xor_cancel_right]

/-- C1: the cipher operation is its own inverse.  For every payload byte
sequence (any length, including empty) and every key and nonce — in
particular every 16-byte key and 16-byte nonce — applying `decryptPayload`
twice under the same `(key, nonce)` returns the original byte sequence, and
the output always has the same length as the input. -/
theorem decryptPayload_roundtrip (key nonce payload : List Nat) :
    decryptPayload key nonce (decryptPayload key nonce payload) = payload ∧
    (decryptPayload key nonce payload).length = payload.length := by
  constructor
  · unfold decryptPayload
    exact decryptGo_involutive payload _ 0 8
  · exact decryptGo_length payload _ 0 8

/-! ### Authentication tag (`writeU64LE`, `readU64LE`, `computeAuthTag`) -/

/-- `readU64LE` (lines 39-45): little-endian read of a 64-bit value,
`value |= data[i] << (8*i)` for `i < 8`. -/
def readU64LE (data : List Nat) : Nat :=
  (List.range 8).foldl (fun value i => value ||| ((data.getD i 0) <<< (8 * i))) 0

/-- `writeU64LE` (lines 47-51): little-endian bytes of a 64-bit value,
`out[i] = (value >> (8*i)) & 0xff`. -/
def writeU64LE (value : Nat) : List Nat :=
  (List.range 8).map fun i => (value >>> (8 * i)) &&& 0xff

/-- `computeAuthTag` (lines 99-122): two domain-separated FNV-1a hashes over
`key ‖ nonce ‖ domain ‖ payload`, seeded with `AUTH_SEED_A` / `AUTH_SEED_B`,
concatenated little-endian. -/
def computeAuthTag (payload nonce key : List Nat) : List Nat :=
  let a := fnv1a64 [key, nonce, AUTH_V1, payload] AUTH_SEED_A
  let b := fnv1a64 [key, nonce, AUTH_V2, payload] AUTH_SEED_B
  writeU64LE a ++ writeU64LE b

/-- Flip bit `k` of byte `i` of a buffer. -/
def flipBit : List Nat → Nat → Nat → List Nat
  | [], _, _ => []
  | b :: rest, 0, k => (b ^^^ (1 <<< k)) :: rest
  | b :: rest, i + 1, k => b :: flipBit rest i k

/-! ### Arithmetic facts about the FNV-1a fold -/

lemma fnvStep_lt (hash d : Nat) : fnvStep hash d < 2 ^ 64 :=
  Nat.mod_lt _ (by norm_num)

lemma fnv1a64Update_lt (l : List Nat) :
    ∀ hash, hash < 2 ^ 64 → fnv1a64Update hash l < 2 ^ 64 := by
  induction l with
  | nil => intro h hh; simpa [fnv1a64Update] using hh
  | cons d rest ih =>
    intro h hh
    have : fnv1a64Update h (d :: rest) = fnv1a64Update (fnvStep h d) rest := rfl
    rw [this]
    exact ih _ (fnvStep_lt _ _)

/-- Multiplication by the odd constant `FNV1A_PRIME` is injective modulo
`2 ^ 64`; witnessed by the explicit modular inverse. -/
lemma mul_prime_mod_inj {a b : Nat} (ha : a < 2 ^ 64) (hb : b < 2 ^ 64)
    (h : a * FNV1A_PRIME % 2 ^ 64 = b * FNV1A_PRIME % 2 ^ 64) : a = b := by
  have hinv : FNV1A_PRIME * 0xce965057aff6957b ≡ 1 [MOD 2 ^ 64] := by decide
  have h1 : a * FNV1A_PRIME ≡ b * FNV1A_PRIME [MOD 2 ^ 64] := h
  have h2 : a * (FNV1A_PRIME * 0xce965057aff6957b) ≡
      b * (FNV1A_PRIME * 0xce965057aff6957b) [MOD 2 ^ 64] := by
    have := h1.mul_right 0xce965057aff6957b
    simpa [Nat.mul_assoc] using this
  have h3 : a ≡ b [MOD 2 ^ 64] := by
    calc a ≡ a * (FNV1A_PRIME * 0xce965057aff6957b) [MOD 2 ^ 64] := by
          simpa using (Nat.ModEq.mul_left a hinv).symm
      _ ≡ b * (FNV1A_PRIME * 0xce965057aff6957b) [MOD 2 ^ 64] := h2
      _ ≡ b [MOD 2 ^ 64] := by simpa using Nat.ModEq.mul_left b hinv
  have := h3
  unfold Nat.ModEq at this
  rwa [Nat.mod_eq_of_lt ha, Nat.mod_eq_of_lt hb] at this

lemma fnvStep_inj_hash {h h' d : Nat} (hh : h < 2 ^ 64) (hh' : h' < 2 ^ 64)
    (hd : d < 2 ^ 64) (hne : h ≠ h') : fnvStep h d ≠ fnvStep h' d := by
  intro heq
  have hx : h ^^^ d = h' ^^^ d :=
    mul_prime_mod_inj (Nat.xor_lt_two_pow hh hd) (Nat.xor_lt_two_pow hh' hd) heq
  exact hne (Nat.xor_left_injective hx)

lemma fnvStep_inj_data {h d d' : Nat} (hh : h < 2 ^ 64) (hd : d < 2 ^ 64)
    (hd' : d' < 2 ^ 64) (hne : d ≠ d') : fnvStep h d ≠ fnvStep h d' := by
  intro heq
  have hx : h ^^^ d = h ^^^ d' :=
    mul_prime_mod_inj (Nat.xor_lt_two_pow hh hd) (Nat.xor_lt_two_pow hh hd') heq
  exact hne (Nat.xor_right_injective hx)

lemma fnv1a64Update_cons (hash d : Nat) (rest : List Nat) :
    fnv1a64Update hash (d :: rest) = fnv1a64Update (fnvStep hash d) rest := rfl

lemma fnv1a64Update_inj_hash (l : List Nat) :
    ∀ h h', (∀ d ∈ l, d < 2 ^ 64) → h < 2 ^ 64 → h' < 2 ^ 64 → h ≠ h' →
      fnv1a64Update h l ≠ fnv1a64Update h' l := by
  induction l with
  | nil => intro h h' _ _ _ hne; simpa [fnv1a64Update] using hne
  | cons d rest ih =>
    intro h h' hl hh hh' hne
    rw [fnv1a64Update_cons, fnv1a64Update_cons]
    exact ih _ _ (fun x hx => hl x (List.mem_cons_of_mem _ hx))
      (fnvStep_lt _ _) (fnvStep_lt _ _)
      (fnvStep_inj_hash hh hh' (hl d (List.mem_cons_self _ _)) hne)

lemma flipBit_bytes (l : List Nat) :
    ∀ i k, k < 8 → (∀ d ∈ l, d < 256) → ∀ d ∈ flipBit l i k, d < 256 := by
  induction l with
  | nil => intro i k _ _ d hd; simp [flipBit] at hd
  | cons b rest ih =>
    intro i k hk hl d hd
    match i with
    | 0 =>
      simp only [flipBit, List.mem_cons] at hd
      rcases hd with h | h
      · subst h
        have hb : b < 2 ^ 8 := hl b (List.mem_cons_self _ _)
        have hbit : (1 <<< k) < 2 ^ 8 := by
          rw [Nat.one_shiftLeft]
          exact Nat.pow_lt_pow_right (by norm_num) hk
        exact Nat.xor_lt_two_pow hb hbit
      · exact hl d (List.mem_cons_of_mem _ h)
    | i + 1 =>
      simp only [flipBit, List.mem_cons] at hd
      rcases hd with h | h
      · subst h; exact hl d (List.mem_cons_self _ _)
      · exact ih i k hk (fun x hx => hl x (List.mem_cons_of_mem _ hx)) d h

lemma xor_bit_ne (b k : Nat) : b ^^^ (1 <<< k) ≠ b := by
  intro h
  have h0 : b ^^^ (1 <<< k) = b ^^^ 0 := by simpa using h
  have : (1 <<< k) = 0 := Nat.xor_right_injective h0
  rw [Nat.one_shiftLeft] at this
  exact absurd this (Nat.pos_iff_ne_zero.mp (Nat.pos_pow_of_pos k (by norm_num)))

lemma flipBit_ne (l : List Nat) :
    ∀ i k, i < l.length → flipBit l i k ≠ l := by
  induction l with
  | nil => intro i k hi; simp at hi
  | cons b rest ih =>
    intro i k hi
    match i with
    | 0 =>
      simp only [flipBit]
      intro h
      exact xor_bit_ne b k (List.head_eq_of_cons_eq h)
    | i + 1 =>
      simp only [flipBit]
      intro h
      exact ih i k (by simpa using hi) (List.tail_eq_of_cons_eq h)

/-- Flipping one bit of one byte changes the FNV-1a fold of the buffer. -/
lemma fnv1a64Update_flip_ne (l : List Nat) :
    ∀ hash i k, i < l.length → k < 8 → (∀ d ∈ l, d < 256) → hash < 2 ^ 64 →
      fnv1a64Update hash (flipBit l i k) ≠ fnv1a64Update hash l := by
  induction l with
  | nil => intro hash i k hi; simp at hi
  | cons b rest ih =>
    intro hash i k hi hk hl hh
    have hb : b < 256 := hl b (List.mem_cons_self _ _)
    have hrest : ∀ d ∈ rest, d < 256 := fun x hx => hl x (List.mem_cons_of_mem _ hx)
    match i with
    | 0 =>
      show fnv1a64Update hash ((b ^^^ (1 <<< k)) :: rest) ≠ fnv1a64Update hash (b :: rest)
      rw [fnv1a64Update_cons, fnv1a64Update_cons]
      have hb' : b ^^^ (1 <<< k) < 256 := by
        have hbit : (1 <<< k) < 2 ^ 8 := by
          rw [Nat.one_shiftLeft]
          exact Nat.pow_lt_pow_right (by norm_num) hk
        exact Nat.xor_lt_two_pow hb hbit
      have h256 : (256 : Nat) < 2 ^ 64 := by norm_num
      have hstep : fnvStep hash (b ^^^ (1 <<< k)) ≠ fnvStep hash b :=
        fnvStep_inj_data hh (lt_trans hb' h256) (lt_trans hb h256) (xor_bit_ne b k)
      exact fnv1a64Update_inj_hash rest _ _
        (fun d hd => lt_trans (hrest d hd) h256)
        (fnvStep_lt _ _) (fnvStep_lt _ _) hstep
    | i + 1 =>
      show fnv1a64Update hash (b :: flipBit rest i k) ≠ fnv1a64Update hash (b :: rest)
      rw [fnv1a64Update_cons, fnv1a64Update_cons]
      exact ih _ i k (by simpa using hi) hk hrest (fnvStep_lt _ _)

lemma writeU64LE_explicit (v : Nat) :
    writeU64LE v = [v % 256, v / 2 ^ 8 % 256, v / 2 ^ 16 % 256, v / 2 ^ 24 % 256,
      v / 2 ^ 32 % 256, v / 2 ^ 40 % 256, v / 2 ^ 48 % 256, v / 2 ^ 56 % 256] := by
  have hmask : ∀ x : Nat, x &&& 0xff = x % 256 := by
    intro x
    have := Nat.and_pow_two_sub_one_eq_mod x 8
    norm_num at this
    simpa using this
  simp [writeU64LE, List.range_succ, Nat.shiftRight_eq_div_pow, hmask]

lemma writeU64LE_inj {v w : Nat} (hv : v < 2 ^ 64) (hw : w < 2 ^ 64)
    (h : writeU64LE v = writeU64LE w) : v = w := by
  rw [writeU64LE_explicit, writeU64LE_explicit] at h
  simp only [List.cons.injEq, and_true] at h
  omega

lemma writeU64LE_length (v : Nat) : (writeU64LE v).length = 8 := by
  simp [writeU64LE]

/-- If the first halves come from different 64-bit values, the two
concatenated tags differ. -/
lemma tag_append_ne {a a' : Nat} (x y : List Nat) (ha : a < 2 ^ 64)
    (ha' : a' < 2 ^ 64) (hne : a ≠ a') :
    writeU64LE a ++ x ≠ writeU64LE a' ++ y := by
  intro h
  have hlen : (writeU64LE a).length = (writeU64LE a').length := by
    rw [writeU64LE_length, writeU64LE_length]
  have := (List.append_inj h hlen).1
  exact hne (writeU64LE_inj ha ha' this)

lemma fnv1a64_four (c1 c2 c3 c4 : List Nat) (seed : Nat) :
    fnv1a64 [c1, c2, c3, c4] seed =
      fnv1a64Update (fnv1a64Update (fnv1a64Update (fnv1a64Update seed c1) c2) c3) c4 := rfl

/-! ### The verify-then-decrypt stage of `main` (lines 186-191) -/

/-- The distinct abort sites of the bootstrap `main` (each a `throw` of
`std::runtime_error` in the source; the names follow the spec taxonomy). -/
inductive BootError where
  | tooSmall        -- "Binary too small (missing footer)", line 157
  | badMagic        -- "Invalid monolith footer magic", line 167
  | badPayloadSize  -- "Invalid payload size in footer", line 170
  | readFailed      -- "Cannot read embedded payload", line 184
  | authFailed      -- "Invalid monolith payload auth tag", line 189
  deriving DecidableEq, Repr

/-- Lines 186-191 of `main`: recompute the tag, compare byte-for-byte with
the stored tag, abort on mismatch, and only then decrypt. -/
def authThenDecrypt (payload nonce authTag key : List Nat) :
    Except BootError (List Nat) :=
  if computeAuthTag payload nonce key = authTag then
    Except.ok (decryptPayload key nonce payload)
  else
    Except.error BootError.authFailed

lemma seedA_lt : AUTH_SEED_A < 2 ^ 64 := by norm_num [AUTH_SEED_A]

lemma bytes_lt_2_64 {l : List Nat} (h : ∀ b ∈ l, b < 256) :
    ∀ b ∈ l, b < 2 ^ 64 :=
  fun b hb => lt_trans (h b hb) (by norm_num)

/-- The first tag half changes when one payload bit is flipped. -/
lemma aHash_flip_payload_ne (key nonce pay : List Nat) (i k : Nat)
    (hi : i < pay.length) (hk : k < 8) (hpay : ∀ b ∈ pay, b < 256) :
    fnv1a64 [key, nonce, AUTH_V1, flipBit pay i k] AUTH_SEED_A ≠
      fnv1a64 [key, nonce, AUTH_V1, pay] AUTH_SEED_A := by
  rw [fnv1a64_four, fnv1a64_four]
  exact fnv1a64Update_flip_ne pay _ i k hi hk hpay
    (fnv1a64Update_lt AUTH_V1 _ (fnv1a64Update_lt nonce _
      (fnv1a64Update_lt key AUTH_SEED_A seedA_lt)))

/-- The first tag half changes when one nonce bit is flipped. -/
lemma aHash_flip_nonce_ne (key nonce pay : List Nat) (i k : Nat)
    (hi : i < nonce.length) (hk : k < 8) (hnonce : ∀ b ∈ nonce, b < 256)
    (hpay : ∀ b ∈ pay, b < 256) :
    fnv1a64 [key, flipBit nonce i k, AUTH_V1, pay] AUTH_SEED_A ≠
      fnv1a64 [key, nonce, AUTH_V1, pay] AUTH_SEED_A := by
  rw [fnv1a64_four, fnv1a64_four]
  have h1lt : fnv1a64Update AUTH_SEED_A key < 2 ^ 64 :=
    fnv1a64Update_lt key AUTH_SEED_A seedA_lt
  have step1 :
      fnv1a64Update (fnv1a64Update AUTH_SEED_A key) (flipBit nonce i k) ≠
        fnv1a64Update (fnv1a64Update AUTH_SEED_A key) nonce :=
    fnv1a64Update_flip_ne nonce _ i k hi hk hnonce h1lt
  have step2 := fnv1a64Update_inj_hash AUTH_V1 _ _
    (by decide) (fnv1a64Update_lt _ _ h1lt) (fnv1a64Update_lt _ _ h1lt) step1
  exact fnv1a64Update_inj_hash pay _ _ (bytes_lt_2_64 hpay)
    (fnv1a64Update_lt _ _ (fnv1a64Update_lt _ _ h1lt))
    (fnv1a64Update_lt _ _ (fnv1a64Update_lt _ _ h1lt)) step2

lemma aHash_lt (c1 c2 c3 c4 : List Nat) :
    fnv1a64 [c1, c2, c3, c4] AUTH_SEED_A < 2 ^ 64 := by
  rw [fnv1a64_four]
  exact fnv1a64Update_lt _ _ (fnv1a64Update_lt _ _ (fnv1a64Update_lt _ _
    (fnv1a64Update_lt _ _ seedA_lt)))

/-- C2: tamper detection.  For every key, nonce and ciphertext of byte
values, with the stored tag equal to `computeAuthTag ciphertext nonce key`,
flipping any single bit of the ciphertext, of the nonce, or of the stored
tag makes the recomputed tag differ from the stored tag, so the byte-for-byte
comparison of `main` fails, authentication fails, and decryption is not
attempted (`authThenDecrypt` aborts with `authFailed`). -/
theorem computeAuthTag_tamper_detection (key nonce pay : List Nat) (i k : Nat)
    (hnonce : ∀ b ∈ nonce, b < 256) (hpay : ∀ b ∈ pay, b < 256) (hk : k < 8) :
    (i < pay.length →
      computeAuthTag (flipBit pay i k) nonce key ≠ computeAuthTag pay nonce key ∧
      authThenDecrypt (flipBit pay i k) nonce (computeAuthTag pay nonce key) key =
        Except.error BootError.authFailed) ∧
    (i < nonce.length →
      computeAuthTag pay (flipBit nonce i k) key ≠ computeAuthTag pay nonce key ∧
      authThenDecrypt pay (flipBit nonce i k) (computeAuthTag pay nonce key) key =
        Except.error BootError.authFailed) ∧
    (i < (computeAuthTag pay nonce key).length →
      flipBit (computeAuthTag pay nonce key) i k ≠ computeAuthTag pay nonce key ∧
      authThenDecrypt pay nonce (flipBit (computeAuthTag pay nonce key) i k) key =
        Except.error BootError.authFailed) := by
  refine ⟨fun hi => ?_, fun hi => ?_, fun hi => ?_⟩
  · have hane : computeAuthTag (flipBit pay i k) nonce key ≠
        computeAuthTag pay nonce key := by
      show writeU64LE _ ++ writeU64LE _ ≠ writeU64LE _ ++ writeU64LE _
      exact tag_append_ne _ _ (aHash_lt _ _ _ _) (aHash_lt _ _ _ _)
        (aHash_flip_payload_ne key nonce pay i k hi hk hpay)
    exact ⟨hane, by rw [authThenDecrypt, if_neg hane]⟩
  · have hane : computeAuthTag pay (flipBit nonce i k) key ≠
        computeAuthTag pay nonce key := by
      show writeU64LE _ ++ writeU64LE _ ≠ writeU64LE _ ++ writeU64LE _
      exact tag_append_ne _ _ (aHash_lt _ _ _ _) (aHash_lt _ _ _ _)
        (aHash_flip_nonce_ne key nonce pay i k hi hk hnonce hpay)
    exact ⟨hane, by rw [authThenDecrypt, if_neg hane]⟩
  · have hane : flipBit (computeAuthTag pay nonce key) i k ≠
        computeAuthTag pay nonce key := flipBit_ne _ i k hi
    refine ⟨hane, ?_⟩
    rw [authThenDecrypt, if_neg (fun h => hane h.symm)]

/-- Witness for C2 at a concrete input: all-zero key and nonce, the one-byte
ciphertext `[0]`, flipping bit 0 of ciphertext byte 0. -/
theorem computeAuthTag_tamper_detection_witness :
    computeAuthTag (flipBit [0] 0 0) (List.replicate 16 0) (List.replicate 16 0) ≠
      computeAuthTag [0] (List.replicate 16 0) (List.replicate 16 0) ∧
    authThenDecrypt (flipBit [0] 0 0) (List.replicate 16 0)
        (computeAuthTag [0] (List.replicate 16 0) (List.replicate 16 0))
        (List.replicate 16 0) =
      Except.error BootError.authFailed :=
  (computeAuthTag_tamper_detection (List.replicate 16 0) (List.replicate 16 0)
    [0] 0 0 (by decide) (by decide) (by decide)).1 (by decide)

/-! ### Key resolution (`resolveKey`, lines 77-97) -/

/-- `std::isxdigit` on a byte in the C locale: `'0'..'9'`, `'a'..'f'`,
`'A'..'F'`. -/
def isxdigit (c : Nat) : Bool :=
  decide ((48 ≤ c ∧ c ≤ 57) ∨ (97 ≤ c ∧ c ≤ 102) ∨ (65 ≤ c ∧ c ≤ 70))

/-- `hexToNibble` (lines 89-93): the two guarded ranges and the fall-through
uppercase case, exactly as in the source. -/
def hexToNibble (c : Nat) : Nat :=
  if 48 ≤ c ∧ c ≤ 57 then c - 48
  else if 97 ≤ c ∧ c ≤ 102 then 10 + (c - 97)
  else 10 + (c - 65)

/-- The decode loop of `resolveKey` (lines 86-95):
`key[i] = (hexToNibble(hex[2i]) << 4) | hexToNibble(hex[2i+1])`. -/
def decodeHexKey (hex : List Nat) : List Nat :=
  (List.range 16).map fun i =>
    (hexToNibble (hex.getD (i * 2) 0)) <<< 4 ||| hexToNibble (hex.getD (i * 2 + 1) 0)

/-- `resolveKey` (lines 77-97).  The environment variable
`HCAI_MONOLITH_KEY` is modelled as `none` (absent) or `some` byte string. -/
def resolveKey (env : Option (List Nat)) : List Nat :=
  match env with
  | none => DEFAULT_KEY
  | some hex =>
    if hex.length ≠ 32 then DEFAULT_KEY
    else if ¬ hex.all isxdigit then DEFAULT_KEY
    else decodeHexKey hex

lemma decodeHexKey_length (hex : List Nat) : (decodeHexKey hex).length = 16 := by
  simp [decodeHexKey]

/-- C5: key fallback.  `resolveKey` decodes the environment value exactly
when it is present, 32 characters long and all hexadecimal; in every other
case (absent, wrong length, non-hex character) it returns precisely the
built-in `DEFAULT_KEY`; it never fails and always returns 16 bytes. -/
theorem resolveKey_fallback (env : Option (List Nat)) :
    (∀ hex, env = some hex → hex.length = 32 → hex.all isxdigit = true →
      resolveKey env = decodeHexKey hex) ∧
    ((env = none ∨
        ∃ hex, env = some hex ∧ (hex.length ≠ 32 ∨ hex.all isxdigit = false)) →
      resolveKey env = DEFAULT_KEY) ∧
    (resolveKey env).length = 16 := by
  refine ⟨?_, ?_, ?_⟩
  · rintro hex rfl h32 hall
    simp [resolveKey, h32, hall]
  · rintro (rfl | ⟨hex, rfl, hbad | hbad⟩)
    · rfl
    · simp [resolveKey, hbad]
    · have h : ¬ hex.all isxdigit = true := by simp [hbad]
      by_cases h32 : hex.length = 32 <;> simp [resolveKey, h32, h]
  · match env with
    | none => rfl
    | some hex =>
      by_cases h32 : hex.length = 32 <;>
        by_cases hall : hex.all isxdigit = true <;>
          simp [resolveKey, h32, hall, decodeHexKey_length, DEFAULT_KEY]

/-- Witness for C5: the 32-character value made of `'g'` (byte 103) is the
right length but not hexadecimal, so the default key is used. -/
theorem resolveKey_fallback_witness :
    resolveKey (some (List.replicate 32 103)) = DEFAULT_KEY :=
  (resolveKey_fallback (some (List.replicate 32 103))).2.1
    (Or.inr ⟨List.replicate 32 103, rfl, Or.inr (by decide)⟩)

/-- ASCII lowercasing of a byte: `'A'..'Z'` maps to `'a'..'z'`. -/
def toLowerByte (c : Nat) : Nat := if 65 ≤ c ∧ c ≤ 90 then c + 32 else c

lemma isxdigit_toLowerByte {c : Nat} (hc : isxdigit c = true) :
    isxdigit (toLowerByte c) = true := by
  rw [isxdigit, decide_eq_true_eq] at hc ⊢
  rw [toLowerByte]
  split_ifs <;> omega

lemma hexToNibble_toLowerByte {c : Nat} (hc : isxdigit c = true) :
    hexToNibble (toLowerByte c) = hexToNibble c := by
  rw [isxdigit, decide_eq_true_eq] at hc
  rw [hexToNibble, hexToNibble, toLowerByte]
  split_ifs <;> omega

lemma getD_mem_of_lt {l : List Nat} {n : Nat} (h : n < l.length) :
    l.getD n 0 ∈ l := by
  rw [List.getD_eq_getElem?_getD, List.getElem?_eq_getElem h]
  exact List.getElem_mem h

lemma getD_map_lt {l : List Nat} {n : Nat} (f : Nat → Nat) (h : n < l.length) :
    (l.map f).getD n 0 = f (l.getD n 0) := by
  rw [List.getD_eq_getElem?_getD, List.getD_eq_getElem?_getD,
    List.getElem?_map, List.getElem?_eq_getElem h]
  rfl

/-- C9: key hex decoding is case-insensitive.  For every 32-character
all-hexadecimal environment value, `resolveKey` accepts it, and lowercasing
every character (mapping `'A'..'F'` to `'a'..'f'`) yields the identical
decoded key. -/
theorem resolveKey_case_insensitive (hex : List Nat) (h32 : hex.length = 32)
    (hall : hex.all isxdigit = true) :
    resolveKey (some hex) = decodeHexKey hex ∧
    resolveKey (some (hex.map toLowerByte)) = resolveKey (some hex) := by
  have hmem : ∀ c ∈ hex, isxdigit c = true := List.all_eq_true.mp hall
  have h32' : (hex.map toLowerByte).length = 32 := by simp [h32]
  have hall' : (hex.map toLowerByte).all isxdigit = true := by
    rw [List.all_eq_true]
    rintro c hc
    rcases List.mem_map.mp hc with ⟨d, hd, rfl⟩
    exact isxdigit_toLowerByte (hmem d hd)
  have hdec : resolveKey (some hex) = decodeHexKey hex := by
    simp [resolveKey, h32, hall]
  have hdec' : resolveKey (some (hex.map toLowerByte)) =
      decodeHexKey (hex.map toLowerByte) := by
    simp [resolveKey, h32', hall']
  refine ⟨hdec, ?_⟩
  rw [hdec, hdec']
  unfold decodeHexKey
  apply List.map_congr_left
  intro i hi
  have hi16 : i < 16 := by simpa using List.mem_range.mp hi
  have h1 : i * 2 < hex.length := by omega
  have h2 : i * 2 + 1 < hex.length := by omega
  rw [getD_map_lt toLowerByte h1, getD_map_lt toLowerByte h2,
    hexToNibble_toLowerByte, hexToNibble_toLowerByte]
  · exact hmem _ (getD_mem_of_lt h2)
  · exact hmem _ (getD_mem_of_lt h1)

/-- Witness for C9: the mixed-case value `"000000000000000000000000000000AB"`
decodes the same way as its lowercase spelling. -/
theorem resolveKey_case_insensitive_witness :
    resolveKey (some (List.replicate 30 48 ++ [65, 66])) =
      decodeHexKey (List.replicate 30 48 ++ [65, 66]) ∧
    resolveKey (some ((List.replicate 30 48 ++ [65, 66]).map toLowerByte)) =
      resolveKey (some (List.replicate 30 48 ++ [65, 66])) :=
  resolveKey_case_insensitive (List.replicate 30 48 ++ [65, 66])
    (by decide) (by decide)

/-! ### Footer validation and the bootstrap pipeline (`main`, lines 148-191) -/

/-- The `static_cast<std::streamoff>` of a `uint64_t` value: `std::streamoff`
is a 64-bit signed integer on the target platform, so values of `2 ^ 63` and
above wrap to negative numbers. -/
def toStreamoff (x : Nat) : Int :=
  if x < 2 ^ 63 then (x : Int) else (x : Int) - 2 ^ 64

/-- The validated footer fields returned by lines 154-176 of `main`. -/
structure Footer where
  payloadSize : Nat
  nonce : List Nat
  authTag : List Nat
  deriving DecidableEq, Repr

/-- Lines 154-176 of `main`: take the final 48 bytes of the image, read the
little-endian `payloadSize` at offset 0, require the magic at offset 40 and
`payloadSize != 0 && (streamoff)payloadSize <= fileSize - 48`, and return
`(payloadSize, nonce at offset 8, authTag at offset 24)`. -/
def validateFooter (file : List Nat) : Except BootError Footer :=
  let fileSize := file.length
  if fileSize < FOOTER_SIZE then Except.error BootError.tooSmall
  else
    let footer := file.drop (fileSize - FOOTER_SIZE)
    let payloadSize := readU64LE (footer.take 8)
    if (footer.drop 40).take 8 ≠ MAGIC then Except.error BootError.badMagic
    else if payloadSize = 0 ∨
        toStreamoff payloadSize > (fileSize : Int) - (FOOTER_SIZE : Int) then
      Except.error BootError.badPayloadSize
    else
      Except.ok ⟨payloadSize, (footer.drop 8).take 16, (footer.drop 24).take 16⟩

/-- Lines 178-184 of `main`: seek to
`payloadStart = fileSize - 48 - (streamoff)payloadSize` and read
`payloadSize` bytes; the read succeeds exactly when that whole range lies
inside the image. -/
def readCiphertext (file : List Nat) (f : Footer) : Option (List Nat) :=
  let start : Int := (file.length : Int) - (FOOTER_SIZE : Int) - toStreamoff f.payloadSize
  if 0 ≤ start ∧ start + (f.payloadSize : Int) ≤ (file.length : Int) then
    some ((file.drop start.toNat).take f.payloadSize)
  else
    none

/-- Lines 148-191 of `main` up to the decryption step: validate the footer,
read the ciphertext, resolve the key, authenticate, then decrypt.  The
result is the plaintext later written to disk and extracted (lines 193 on).
The key environment variable is passed in as `env`. -/
def runBootstrap (file : List Nat) (env : Option (List Nat)) :
    Except BootError (List Nat) :=
  match validateFooter file with
  | Except.error e => Except.error e
  | Except.ok f =>
    match readCiphertext file f with
    | none => Except.error BootError.readFailed
    | some ct => authThenDecrypt ct f.nonce f.authTag (resolveKey env)

/-- C3: verify-then-decrypt.  On every bootstrap execution: (a) if the run
reaches the authentication step (footer valid, ciphertext read) and the
recomputed tag differs from the stored tag, the bootstrap aborts with
`authFailed` and the decryption operation is never applied; (b) a plaintext
is handed to the downstream steps (file write, extraction, handoff) only if
the two 16-byte tags compared equal byte-for-byte, and that plaintext is
exactly the decryption of the authenticated ciphertext. -/
theorem runBootstrap_verify_then_decrypt (file : List Nat)
    (env : Option (List Nat)) :
    (∀ f ct, validateFooter file = Except.ok f →
      readCiphertext file f = some ct →
      computeAuthTag ct f.nonce (resolveKey env) ≠ f.authTag →
      runBootstrap file env = Except.error BootError.authFailed) ∧
    (∀ pt, runBootstrap file env = Except.ok pt →
      ∃ f ct, validateFooter file = Except.ok f ∧
        readCiphertext file f = some ct ∧
        computeAuthTag ct f.nonce (resolveKey env) = f.authTag ∧
        pt = decryptPayload (resolveKey env) f.nonce ct) := by
  constructor
  · intro f ct hval hread hne
    simp only [runBootstrap, hval, hread]
    rw [authThenDecrypt, if_neg hne]
  · intro pt hok
    rw [runBootstrap] at hok
    match hval : validateFooter file with
    | Except.error e =>
      simp only [hval] at hok
      exact absurd hok (by simp)
    | Except.ok f =>
      simp only [hval] at hok
      match hread : readCiphertext file f with
      | none =>
        simp only [hread] at hok
        exact absurd hok (by simp)
      | some ct =>
        simp only [hread, authThenDecrypt] at hok
        by_cases heq : computeAuthTag ct f.nonce (resolveKey env) = f.authTag
        · rw [if_pos heq] at hok
          exact ⟨f, ct, rfl, hread, heq, (Except.ok.inj hok).symm⟩
        · rw [if_neg heq] at hok
          exact absurd hok (by simp)

/-- Witness for C3 at a concrete image: a 49-byte file with a one-byte
payload, valid magic, `payloadSize = 1`, all-zero nonce and an all-zero
stored tag (which does not match the recomputed tag), under the absent
key variable. -/
theorem runBootstrap_verify_then_decrypt_witness :
    runBootstrap ([0] ++ [1, 0, 0, 0, 0, 0, 0, 0] ++ List.replicate 16 0 ++
        List.replicate 16 0 ++ MAGIC) none =
      Except.error BootError.authFailed :=
  (runBootstrap_verify_then_decrypt ([0] ++ [1, 0, 0, 0, 0, 0, 0, 0] ++
      List.replicate 16 0 ++ List.replicate 16 0 ++ MAGIC) none).1
    ⟨1, List.replicate 16 0, List.replicate 16 0⟩ [0]
    (by rfl) (by rfl) (by decide)

/-- C4: footer rejection — the code deviates from the claim.  The claim
requires footer validation to fail with a `FormatError` whenever the
declared `payloadSize` exceeds `fileSize - 48`.  On the 48-byte image whose
footer declares `payloadSize = 2 ^ 63` (little-endian bytes
`00 .. 00 80`) with valid magic, `payloadSize` exceeds
`fileSize - 48 = 0`, yet `validateFooter` accepts the footer: the
`static_cast<std::streamoff>(payloadSize)` on line 169 wraps `2 ^ 63` to a
negative number, so the `> fileSize - 48` comparison passes.  This theorem
evaluates the embedded check at that failing input. -/
theorem validateFooter_signed_cast_bug :
    ([0, 0, 0, 0, 0, 0, 0, 0x80] ++ List.replicate 16 0 ++ List.replicate 16 0 ++
        MAGIC).length = 48 ∧
    2 ^ 63 > ([0, 0, 0, 0, 0, 0, 0, 0x80] ++ List.replicate 16 0 ++
        List.replicate 16 0 ++ MAGIC).length - FOOTER_SIZE ∧
    validateFooter ([0, 0, 0, 0, 0, 0, 0, 0x80] ++ List.replicate 16 0 ++
        List.replicate 16 0 ++ MAGIC) =
      Except.ok ⟨2 ^ 63, List.replicate 16 0, List.replicate 16 0⟩ :=
  ⟨by decide, by decide, by rfl⟩

/-! ### The process supervisor (`src/launcher/src/main.cpp`)

The supervisor is modelled as the sequence of process-management actions it
performs, parameterised by the facts the operating system reports to it:
the two fork results, which child `wait` returns first, and that child's
raw wait status.  Wait statuses use the glibc encoding:
`WIFEXITED(s) = ((s & 0x7f) == 0)` and `WEXITSTATUS(s) = ((s & 0xff00) >> 8)`. -/

/-- The two supervised roles: `rag-cpp-server` (backend, `ragPid`) and
`ts-server` (frontend, `tsPid`). -/
inductive Role where
  | ragServer
  | tsServer
  deriving DecidableEq, Repr

/-- Process-management actions the supervisor performs, in order. -/
inductive Sys where
  | forkChild (r : Role)          -- fork + execl of a child (lines 55-60, 64-69)
  | kill (pid : Int) (sig : Nat)  -- kill(pid, sig), line 18
  | waitChild (pid : Int)         -- waitpid(pid, nullptr, 0), line 19
  deriving DecidableEq, Repr

/-- `SIGTERM`. -/
def SIGTERM : Nat := 15

/-- `WIFEXITED` on a raw wait status. -/
def WIFEXITED (status : Nat) : Bool := status &&& 0x7f = 0

/-- `WEXITSTATUS` on a raw wait status. -/
def WEXITSTATUS (status : Nat) : Nat := (status &&& 0xff00) >>> 8

/-- `terminateChild` (lines 16-21): `kill(pid, SIGTERM)` then
`waitpid(pid, nullptr, 0)`, but only when `pid > 0`. -/
def terminateChild (pid : Int) : List Sys :=
  if pid > 0 then [Sys.kill pid SIGTERM, Sys.waitChild pid] else []

/-- `onSignal` (lines 23-27): on SIGINT/SIGTERM terminate the frontend, then
the backend, then `std::_Exit(0)`.  Returns the action list and the
supervisor's exit status (unconditionally 0). -/
def onSignal (ragPid tsPid : Int) : List Sys × Nat :=
  (terminateChild tsPid ++ terminateChild ragPid, 0)

/-- The body of a forked child (lines 56-60 and 64-69): `execl` the target
binary; on exec failure print a diagnostic and `_Exit(1)`.  `none` means the
child was replaced by the target image; `some c` means exec failed and the
child exited with code `c`. -/
def childBody (execOk : Bool) : Option Nat :=
  if execOk then none else some 1

/-- `main` of the launcher (lines 37-80), seen as its sequence of
process-management actions: fork the backend, stagger, fork the frontend
(unconditionally — no check between the two forks), block in `wait`, run
the lines 71-79 cascade for the first-finishing pid, and return
`WIFEXITED(status) ? WEXITSTATUS(status) : 1`.  `finished` is the pid
returned by `wait` and `status` the raw status it stored. -/
def supervisorMain (ragPid tsPid finished : Int) (status : Nat) :
    List Sys × Nat :=
  let cascade :=
    if finished = tsPid then terminateChild ragPid
    else if finished = ragPid then terminateChild tsPid
    else []
  ([Sys.forkChild Role.ragServer, Sys.forkChild Role.tsServer] ++ cascade,
    if WIFEXITED status then WEXITSTATUS status else 1)

/-- C6: cascade exit mapping.  With both children running (distinct positive
pids), if the first child to exit exited normally with code
`c = WEXITSTATUS status`, the supervisor sends SIGTERM to the other child,
waits for it, and itself exits with code `c` — whichever child exited first
(backend exit 7 gives supervisor exit 7, frontend exit 3 gives 3).  If the
first exit was abnormal (`WIFEXITED` false), the supervisor exits 1. -/
theorem supervisorMain_cascade (ragPid tsPid : Int) (status c : Nat)
    (hrag : 0 < ragPid) (hts : 0 < tsPid) (hne : ragPid ≠ tsPid) :
    (WIFEXITED status = true → WEXITSTATUS status = c →
      supervisorMain ragPid tsPid ragPid status =
        ([Sys.forkChild Role.ragServer, Sys.forkChild Role.tsServer,
          Sys.kill tsPid SIGTERM, Sys.waitChild tsPid], c) ∧
      supervisorMain ragPid tsPid tsPid status =
        ([Sys.forkChild Role.ragServer, Sys.forkChild Role.tsServer,
          Sys.kill ragPid SIGTERM, Sys.waitChild ragPid], c)) ∧
    (WIFEXITED status = false →
      (supervisorMain ragPid tsPid ragPid status).2 = 1 ∧
      (supervisorMain ragPid tsPid tsPid status).2 = 1) := by
  constructor
  · rintro hex rfl
    constructor
    · rw [supervisorMain]
      rw [if_neg hne, if_pos rfl, terminateChild, if_pos hts, if_pos hex]
      rfl
    · rw [supervisorMain]
      rw [if_pos rfl, terminateChild, if_pos hrag, if_pos hex]
      rfl
  · intro hex
    constructor <;>
      simp [supervisorMain, hex]

/-- Witness for C6: pids 10 and 20, backend exits first with status
`0x700` (normal exit, code 7). -/
theorem supervisorMain_cascade_witness :
    supervisorMain 10 20 10 0x700 =
      ([Sys.forkChild Role.ragServer, Sys.forkChild Role.tsServer,
        Sys.kill 20 SIGTERM, Sys.waitChild 20], 7) ∧
    supervisorMain 10 20 20 0x700 =
      ([Sys.forkChild Role.ragServer, Sys.forkChild Role.tsServer,
        Sys.kill 10 SIGTERM, Sys.waitChild 10], 7) :=
  ((supervisorMain_cascade 10 20 0x700 7 (by decide) (by decide) (by decide)).1
    (by decide) (by decide))

/-- C7: signal shutdown.  Whenever SIGINT or SIGTERM is delivered while both
children are running (positive pids), the handler sends SIGTERM to each
child (frontend first), waits for each to exit, and the supervisor exits
with status 0 — with no inspection of the children's individual exit
statuses, unlike the organic-cascade mapping. -/
theorem onSignal_shutdown (ragPid tsPid : Int)
    (hrag : 0 < ragPid) (hts : 0 < tsPid) :
    onSignal ragPid tsPid =
      ([Sys.kill tsPid SIGTERM, Sys.waitChild tsPid,
        Sys.kill ragPid SIGTERM, Sys.waitChild ragPid], 0) := by
  rw [onSignal, terminateChild, terminateChild, if_pos hts, if_pos hrag]
  rfl

/-- Witness for C7 at pids 10 and 20. -/
theorem onSignal_shutdown_witness :
    onSignal 10 20 =
      ([Sys.kill 20 SIGTERM, Sys.waitChild 20,
        Sys.kill 10 SIGTERM, Sys.waitChild 10], 0) :=
  onSignal_shutdown 10 20 (by decide) (by decide)

/-- C10: the signal path never signals a non-positive pid.  `terminateChild`
is a no-op whenever the recorded pid is not strictly positive, so a signal
delivered before a child was forked (pid still `-1`) or after a fork
failure produces no `kill` or `waitpid` call for that slot — in particular
never `kill(-1, ...)` — every pid that is killed or waited on in the
handler is strictly positive, and the supervisor still exits with status 0. -/
theorem terminateChild_skips_nonpositive (ragPid tsPid : Int) :
    (∀ pid : Int, pid ≤ 0 → terminateChild pid = []) ∧
    (∀ p s, Sys.kill p s ∈ (onSignal ragPid tsPid).1 → 0 < p) ∧
    (∀ p, Sys.waitChild p ∈ (onSignal ragPid tsPid).1 → 0 < p) ∧
    (onSignal ragPid tsPid).2 = 0 := by
  have hterm : ∀ pid : Int, pid ≤ 0 → terminateChild pid = [] := by
    intro pid hpid
    rw [terminateChild, if_neg (by omega)]
  refine ⟨hterm, ?_, ?_, rfl⟩
  · intro p s hmem
    rw [onSignal] at hmem
    simp only [List.mem_append] at hmem
    rcases hmem with h | h <;>
    · rw [terminateChild] at h
      split_ifs at h with hpos
      · simp only [List.mem_cons, List.not_mem_nil, or_false] at h
        rcases h with h | h <;> first
          | (injection h with h1 h2; omega)
          | exact absurd h (by simp)
      · simp at h
  · intro p hmem
    rw [onSignal] at hmem
    simp only [List.mem_append] at hmem
    rcases hmem with h | h <;>
    · rw [terminateChild] at h
      split_ifs at h with hpos
      · simp only [List.mem_cons, List.not_mem_nil, or_false] at h
        rcases h with h | h <;> first
          | (injection h with h1; omega)
          | exact absurd h (by simp)
      · simp at h

/-- Witness for C10: backend fork failed (`ragPid = -1`), frontend running
as pid 7; the handler must not emit `kill(-1, ...)`. -/
theorem terminateChild_skips_nonpositive_witness :
    terminateChild (-1) = [] ∧ (onSignal (-1) 7).2 = 0 :=
  ⟨(terminateChild_skips_nonpositive (-1) 7).1 (-1) (by decide),
    (terminateChild_skips_nonpositive (-1) 7).2.2.2⟩

/-- C8 counterexample: the claim says that when the backend fails to start
the supervisor exits nonzero immediately, "in particular without spawning
the frontend".  In the source there is no check between the two forks
(lines 55-69): the frontend fork is unconditional.  Concretely, in the
execution where the backend's exec fails — the backend child exits with
code 1 (`childBody false = some 1`), so `wait` returns the backend pid 10
with status `0x100` — the supervisor's action sequence still contains the
frontend fork, refuting "without spawning the frontend" (the exit code is
1, so the "exits nonzero" half does hold). -/
theorem supervisorMain_spawns_frontend_after_backend_failure :
    childBody false = some 1 ∧
    Sys.forkChild Role.tsServer ∈ (supervisorMain 10 20 10 0x100).1 ∧
    (supervisorMain 10 20 10 0x100).2 = 1 := by
  refine ⟨rfl, ?_, rfl⟩
  rw [supervisorMain]
  simp

/-- C8 as amended: spawn-failure handling.  If the backend fails to start,
its child process exits with code 1; the supervisor nevertheless spawns the
frontend, and upon reaping the backend's exit (status `0x100`) terminates
the frontend and itself exits nonzero (code 1).  If the frontend fails to
start after the backend was started, the supervisor terminates the
already-started backend before exiting nonzero (code 1), so no supervised
child is left unsupervised. -/
theorem supervisorMain_spawn_failure (ragPid tsPid : Int)
    (hrag : 0 < ragPid) (hts : 0 < tsPid) (hne : ragPid ≠ tsPid) :
    childBody false = some 1 ∧
    supervisorMain ragPid tsPid ragPid 0x100 =
      ([Sys.forkChild Role.ragServer, Sys.forkChild Role.tsServer,
        Sys.kill tsPid SIGTERM, Sys.waitChild tsPid], 1) ∧
    supervisorMain ragPid tsPid tsPid 0x100 =
      ([Sys.forkChild Role.ragServer, Sys.forkChild Role.tsServer,
        Sys.kill ragPid SIGTERM, Sys.waitChild ragPid], 1) := by
  refine ⟨rfl, ?_, ?_⟩
  · rw [supervisorMain, if_neg hne, if_pos rfl, terminateChild, if_pos hts]
    rfl
  · rw [supervisorMain, if_pos rfl, terminateChild, if_pos hrag]
    rfl

/-- Witness for the amended C8 at pids 10 and 20. -/
theorem supervisorMain_spawn_failure_witness :
    childBody false = some 1 ∧
    supervisorMain 10 20 10 0x100 =
      ([Sys.forkChild Role.ragServer, Sys.forkChild Role.tsServer,
        Sys.kill 20 SIGTERM, Sys.waitChild 20], 1) ∧
    supervisorMain 10 20 20 0x100 =
      ([Sys.forkChild Role.ragServer, Sys.forkChild Role.tsServer,
        Sys.kill 10 SIGTERM, Sys.waitChild 10], 1) :=
  supervisorMain_spawn_failure 10 20 (by decide) (by decide) (by decide)
